import Mathlib

/-!
Verification development for the monorepo dependency-tree provider
(`src/dependencyProvider.ts`, class `MonorepoDependenciesProvider`).

Shallow embedding notes.

JavaScript `Map` objects (insertion-ordered) are embedded as association
lists `List (String × α)`; `Map.get` is `jsMapGet` (first match or absent)
and `Map.set` is `jsMapSet` (replace in place, else append at the end,
exactly the JS insertion-order semantics).  A JS value that may be
`undefined`/`null` is embedded as `Option`; a thrown runtime error is an
`Except.error` carrying a `JsErr`.  A JS array that may contain
`undefined` entries is a `List (Option _)`.

The provider's collaborators are imported from files of this repository
that are not part of the analysed sources (`./workspaces`, `./readJson`,
`./dependency`) or from external packages (`pkg-up`, `vscode`, `path`).
Modelled from the spec: they appear here as the abstract `World` record,
following the collaborator contracts of the specification
(`enumerateWorkspacePackages`, the dependency resolver producing the
name-to-out-edge map, `detectWorkspaceTool` plus the configuration
override, `findWorkspaceRoot`, `readManifest`, `nearestManifestFile`,
`path.dirname`).  Reading a manifest can fail; the failure propagates as
an `Except.error`.

Emitted user-facing notices (`window.showInformationMessage`) are
returned as a `List String`; fired tree-change events
(`_onDidChangeTreeData.fire`) are returned as a count (`Nat`).
-/

/-- Runtime errors of the embedded JavaScript. -/
inductive JsErr where
  /-- `readJson` was called with a `null` path (the `pkgUp` result was
  `null` and the `as string` cast let it through). -/
  | nullPathRead
  /-- `path.join` was called with an `undefined` first segment (the
  non-null assertion on `getWorkspaceRoot` was wrong at run time). -/
  | nullPathJoin
  /-- A property access or destructuring on `undefined` (a `TypeError`). -/
  | undefinedAccess
  /-- A manifest file could not be read or parsed. -/
  | readFailed (path : String)
  deriving DecidableEq, Repr

/-- One enumerated workspace package (the `PackageInfo` of
`workspace-tools`); only the fields the provider reads are kept. -/
structure PackageInfo where
  name : String
  deriving DecidableEq, Repr

/-- A parsed `package.json` as returned by `readJson`; only the fields
the provider reads are kept. -/
structure PkgJson where
  name : String
  deriving DecidableEq, Repr

/-- Collapse-state hint of a tree node (`vscode.TreeItemCollapsibleState`). -/
inductive TreeItemCollapsibleState where
  | None
  | Collapsed
  | Expanded
  deriving DecidableEq, Repr

/-- The workspace payload stored inside a `DependencyTreeItem`: the
spread package data plus `tool` and `children` (out-edge name set, in
insertion order).  The synthetic root item carries no `children` field in
the source; it is embedded with an empty list, which is observationally
equal for every code path (the root branch of `getChildren` returns
before `children` is inspected). -/
structure WorkspaceInfo where
  name : String
  tool : Option String
  children : List String
  deriving DecidableEq, Repr

/-- Modelled from the spec: the `DependencyTreeItem` class of
`./dependency` (not among the analysed sources).  A TreeNode wraps one
package, its out-edge name set, a collapse-state hint, the sentinel
`root` flag and an optional description. -/
structure DependencyTreeItem where
  workspace : WorkspaceInfo
  collapsibleState : TreeItemCollapsibleState
  root : Bool := false
  description : Option String := none
  deriving DecidableEq, Repr

/-- Mutable fields of `MonorepoDependenciesProvider`. -/
structure ProviderState where
  workspaceRoot : String
  workspacePkgJson : Option PkgJson
  workspaceTool : Option String
  rootPkg : Option DependencyTreeItem
  graph : List (String × List String)
  items : List (String × DependencyTreeItem)
  activePackage : Option DependencyTreeItem
  deriving DecidableEq, Repr

/-- Modelled from the spec: the external collaborators the provider
calls, bundled as one record.  `getWorkspaces`, `getDependencyTree`,
`getWorkspaceTool` and `getWorkspaceRoot` are the `./workspaces` module
(enumerator, dependency resolver, tool detection, workspace-root
search); `readJson` is the manifest reader (it can fail, and the failure
propagates); `pkgUp` is the nearest-manifest search (absent when no
manifest owns the path); `toolOverride` is the
`monorepoTools.workspaceToolOverride` configuration value; `dirname` is
`path.dirname`. -/
structure World where
  getWorkspaces : String → List (String × PackageInfo)
  getDependencyTree : List (String × PackageInfo) → List (String × List String)
  toolOverride : Option String
  getWorkspaceTool : String → Option String
  getWorkspaceRoot : String → Option String
  readJson : String → Except JsErr PkgJson
  pkgUp : String → Option String
  dirname : String → String

/-- JS `Map.get`: the value stored at the first matching key, or absent. -/
def jsMapGet {α : Type} (l : List (String × α)) (k : String) : Option α :=
  match l with
  | [] => none
  | (k2, v) :: rest => if k2 == k then some v else jsMapGet rest k

/-- JS `Map.set`: replace the value at an existing key in place (keeping
its insertion position), otherwise append the new binding at the end. -/
def jsMapSet {α : Type} (l : List (String × α)) (k : String) (v : α) :
    List (String × α) :=
  match l with
  | [] => [(k, v)]
  | (k2, v2) :: rest =>
    if k2 == k then (k2, v) :: rest else (k2, v2) :: jsMapSet rest k v

/-- JS `a || b` on two possibly-absent strings: the empty string is
falsy, so `some ""` behaves like `none`. -/
def jsOr (a b : Option String) : Option String :=
  match a with
  | some s => if s = "" then b else some s
  | none => b

/-- Lines 115-121 of the source: the workspace-tool command string is
the configuration override if truthy, else the detected tool if truthy,
else the fixed fallback `"npm run"`
(`override || getWorkspaceTool(root)`, then `tool || "npm run"`). -/
def resolveWorkspaceTool (override detected : Option String) : String :=
  match jsOr override detected with
  | some s => if s = "" then "npm run" else s
  | none => "npm run"

/-- Lines 162-173 of the source: the `DependencyTreeItem` built for one
enumerated package entry.  `children` is `tree.get(name) || new Set()`;
the collapse state is `Collapsed` when `children` is non-empty and
`None` when it is empty. -/
def loadedItem (tool : Option String) (tree : List (String × List String))
    (entry : String × PackageInfo) : DependencyTreeItem :=
  let children := (jsMapGet tree entry.1).getD []
  { workspace := { name := entry.2.name, tool := tool, children := children },
    collapsibleState :=
      if children.isEmpty then TreeItemCollapsibleState.None
      else TreeItemCollapsibleState.Collapsed,
    root := false,
    description := none }

/-- The `items` map built by `loadDependencyTree`: one `Map.set` per
enumerated package entry, in enumeration order. -/
def buildItems (tool : Option String) (tree : List (String × List String))
    (workspaces : List (String × PackageInfo)) :
    List (String × DependencyTreeItem) :=
  workspaces.foldl (fun acc e => jsMapSet acc e.1 (loadedItem tool tree e)) []

/-- The record returned by `loadDependencyTree`. -/
structure LoadResult where
  workspaces : List (String × PackageInfo)
  tree : List (String × List String)
  tool : Option String
  items : List (String × DependencyTreeItem)
  deriving DecidableEq, Repr

/-- Lines 150-182 of the source: enumerate the packages of `root`,
resolve the dependency tree, resolve the tool, build one tree item per
package and store the fresh map in `this.items`. -/
def loadDependencyTree (w : World) (st : ProviderState) (root : String) :
    ProviderState × LoadResult :=
  let workspaces := w.getWorkspaces root
  let tree := w.getDependencyTree workspaces
  let tool := jsOr w.toolOverride (w.getWorkspaceTool root)
  let items := buildItems tool tree workspaces
  ({ st with items := items },
   { workspaces := workspaces, tree := tree, tool := tool, items := items })

/-- Lines 123-131 and 134 of the source: the synthetic root
`DependencyTreeItem` built from the workspace manifest, with the
`Expanded` state, the `root` flag set, the tool resolved as
`override || detected`, and a description carrying the package count. -/
def mkRootDependency (w : World) (workspaceRoot : String)
    (workspacePackage : PkgJson) (count : Nat) : DependencyTreeItem :=
  { workspace :=
      { name := workspacePackage.name,
        tool := jsOr w.toolOverride (w.getWorkspaceTool workspaceRoot),
        children := [] },
    collapsibleState := TreeItemCollapsibleState.Expanded,
    root := true,
    description := some (toString count ++ " packages") }

/-- Lines 112-139 of the source: build the synthetic root item.  The
non-null assertion on `getWorkspaceRoot` means an absent root reaches
`path.join(undefined, "package.json")`, which throws; a failing manifest
read also propagates.  On success `this.workspaceTool` and
`this.rootPkg` are updated and the root item is returned. -/
def getRootItem (w : World) (st : ProviderState)
    (items : List (String × DependencyTreeItem)) :
    Except JsErr (ProviderState × DependencyTreeItem) :=
  match w.getWorkspaceRoot st.workspaceRoot with
  | none => Except.error JsErr.nullPathJoin
  | some workspaceRoot =>
    match w.readJson (workspaceRoot ++ "/package.json") with
    | Except.error e => Except.error e
    | Except.ok workspacePackage =>
      let rootDependency :=
        mkRootDependency w workspaceRoot workspacePackage items.length
      Except.ok
        ({ st with
            workspaceTool :=
              some (resolveWorkspaceTool w.toolOverride
                (w.getWorkspaceTool workspaceRoot)),
            rootPkg := some rootDependency },
         rootDependency)

/-- Lines 95-106 of the source: the body of the `keys.map` callback.
For each out-edge `name` the item is looked up (`items.get(name)`, an
`undefined` result is kept as an entry); when the expanding element's
own name occurs among its out-edge keys a circular-dependency notice is
emitted for the entry, and composing the notice reads
`dep.workspace.name`, which throws if the lookup was `undefined`. -/
def resolveDeps (items : List (String × DependencyTreeItem))
    (selfName : String) (keys : List String) :
    List String → Except JsErr (List (Option DependencyTreeItem) × List String)
  | [] => Except.ok ([], [])
  | name :: rest =>
    let dep := jsMapGet items name
    if keys.contains selfName then
      match dep with
      | none => Except.error JsErr.undefinedAccess
      | some d =>
        match resolveDeps items selfName keys rest with
        | Except.error e => Except.error e
        | Except.ok (ds, ms) =>
          Except.ok (some d :: ds,
            ("Circular dependency: " ++ selfName ++ " -> " ++
              d.workspace.name) :: ms)
    else
      match resolveDeps items selfName keys rest with
      | Except.error e => Except.error e
      | Except.ok (ds, ms) => Except.ok (dep :: ds, ms)

/-- Lines 75-110 of the source: `getChildren`.  Every call re-loads the
dependency tree.  With no element: empty item map gives an empty list,
otherwise the single root item (the source's `root ? [root] : []` always
takes the first branch since the item is an object).  With the root
element: all items in insertion order.  Otherwise: one entry per
out-edge name via `resolveDeps`, or an empty list when the out-edge set
is empty.  The result carries the updated state, the returned entries
and the emitted notices. -/
def getChildren (w : World) (st : ProviderState)
    (element : Option DependencyTreeItem) :
    Except JsErr (ProviderState × List (Option DependencyTreeItem) × List String) :=
  let lr := loadDependencyTree w st st.workspaceRoot
  let st1 := lr.1
  let items := lr.2.items
  match element with
  | none =>
    if items.isEmpty then Except.ok (st1, [], [])
    else
      match getRootItem w st1 items with
      | Except.error e => Except.error e
      | Except.ok (st2, root) => Except.ok (st2, [some root], [])
  | some el =>
    if el.root then Except.ok (st1, items.map (fun p => some p.2), [])
    else if (el.workspace.children).isEmpty then Except.ok (st1, [], [])
    else
      match resolveDeps items el.workspace.name el.workspace.children
          el.workspace.children with
      | Except.error e => Except.error e
      | Except.ok (ds, ms) => Except.ok (st1, ds, ms)

/-- Lines 141-145 of the source: `getFirst` re-loads and destructures
the first entry of the items iterator; on an empty map the iterator
yields `undefined` and the destructuring throws. -/
def getFirst (w : World) (st : ProviderState) :
    Except JsErr (ProviderState × DependencyTreeItem) :=
  let lr := loadDependencyTree w st st.workspaceRoot
  match lr.2.items with
  | [] => Except.error JsErr.undefinedAccess
  | (_, pkg) :: _ => Except.ok (lr.1, pkg)

/-- Lines 193-212 of the source: `setActiveFile`.  The nearest manifest
of the file's directory is searched (`pkgUp`); a `null` result is cast
to `string` and reaches `readJson`, which throws on a null path.  An
absent workspace root reaches `path.join(undefined, ...)`, which also
throws.  On success the root, workspace manifest and active package are
stored, and the tree-change event fires exactly when the owning root
differs from the previously stored one.  The returned `Nat` counts the
fired tree-change events. -/
def setActiveFile (w : World) (st : ProviderState) (filename : String) :
    Except JsErr (ProviderState × Nat) :=
  let cwd := w.dirname filename
  match w.pkgUp cwd with
  | none => Except.error JsErr.nullPathRead
  | some packageForFilename =>
    match w.readJson packageForFilename with
    | Except.error e => Except.error e
    | Except.ok activePackage =>
      match w.getWorkspaceRoot cwd with
      | none => Except.error JsErr.nullPathJoin
      | some workspaceRoot =>
        match w.readJson (workspaceRoot ++ "/package.json") with
        | Except.error e => Except.error e
        | Except.ok workspacePackage =>
          let st2 := { st with
            workspaceRoot := workspaceRoot,
            workspacePkgJson := some workspacePackage,
            activePackage := jsMapGet st.items activePackage.name }
          if workspaceRoot = st.workspaceRoot then Except.ok (st2, 0)
          else Except.ok (st2, 1)

/-- Lines 222-226 of the source: `statusText` reports the workspace name
and the current package count, or a loading placeholder before the
workspace manifest is known. -/
def statusText (st : ProviderState) : String :=
  match st.workspacePkgJson with
  | some pkg =>
    "Workspace: " ++ pkg.name ++ ", " ++ toString st.items.length ++
      " packages"
  | none => "Workspace: Loading..."

/-! Concrete workspaces used by the witnesses and counterexamples. -/

/-- The example workspace of the specification: `app` depends on
`lib-a`, `lib-a` depends on `lib-b` (and on an external package that
produced no edge), `lib-b` is a leaf. -/
def exWorkspaces : List (String × PackageInfo) :=
  [("app", { name := "app" }), ("lib-a", { name := "lib-a" }),
   ("lib-b", { name := "lib-b" })]

/-- The resolved dependency tree of the example workspace. -/
def exTree : List (String × List String) :=
  [("app", ["lib-a"]), ("lib-a", ["lib-b"]), ("lib-b", [])]

/-- Collaborators for the example workspace rooted at `/repo`. -/
def exWorld : World :=
  { getWorkspaces := fun _ => exWorkspaces,
    getDependencyTree := fun _ => exTree,
    toolOverride := none,
    getWorkspaceTool := fun _ => some "yarn",
    getWorkspaceRoot := fun _ => some "/repo",
    readJson := fun p =>
      if p = "/repo/package.json" then Except.ok { name := "repo" }
      else if p = "/repo/packages/app/package.json" then
        Except.ok { name := "app" }
      else Except.error (JsErr.readFailed p),
    pkgUp := fun c => some (c ++ "/package.json"),
    dirname := fun _ => "/repo/packages/app" }

/-- Provider state after construction for the `/repo` workspace. -/
def exSt : ProviderState :=
  { workspaceRoot := "/repo", workspacePkgJson := some { name := "repo" },
    workspaceTool := none, rootPkg := none, graph := [], items := [],
    activePackage := none }

/-- The loaded item for `app`. -/
def exItemApp : DependencyTreeItem :=
  loadedItem (some "yarn") exTree ("app", { name := "app" })

/-- The loaded item for `lib-a`. -/
def exItemLibA : DependencyTreeItem :=
  loadedItem (some "yarn") exTree ("lib-a", { name := "lib-a" })

/-- The loaded item for `lib-b` (a leaf). -/
def exItemLibB : DependencyTreeItem :=
  loadedItem (some "yarn") exTree ("lib-b", { name := "lib-b" })

/-- The item map of the example workspace, in enumeration order. -/
def exItems : List (String × DependencyTreeItem) :=
  [("app", exItemApp), ("lib-a", exItemLibA), ("lib-b", exItemLibB)]

/-- Example state after one load. -/
def exStLoaded : ProviderState := { exSt with items := exItems }

/-- The synthetic root item of the example workspace. -/
def exRootItem : DependencyTreeItem :=
  mkRootDependency exWorld "/repo" { name := "repo" } 3

/-- Example state after a load followed by `getRootItem`. -/
def exStRoot : ProviderState :=
  { exStLoaded with workspaceTool := some "yarn", rootPkg := some exRootItem }

/-- Example state after `getRootItem` applied to the fresh constructor
state (used by the tool-resolution witness). -/
def exStRootPlain : ProviderState :=
  { exSt with workspaceTool := some "yarn", rootPkg := some exRootItem }

/-- A workspace with a two-package dependency cycle: `A` depends on `B`
and `B` depends on `A`. -/
def cycleWorld : World :=
  { getWorkspaces := fun _ => [("A", { name := "A" }), ("B", { name := "B" })],
    getDependencyTree := fun _ => [("A", ["B"]), ("B", ["A"])],
    toolOverride := none,
    getWorkspaceTool := fun _ => some "yarn",
    getWorkspaceRoot := fun _ => some "/cycle",
    readJson := fun p =>
      if p = "/cycle/package.json" then Except.ok { name := "cycle" }
      else Except.error (JsErr.readFailed p),
    pkgUp := fun c => some (c ++ "/package.json"),
    dirname := fun s => s }

/-- Provider state for the cyclic workspace. -/
def cycleSt : ProviderState :=
  { workspaceRoot := "/cycle", workspacePkgJson := some { name := "cycle" },
    workspaceTool := none, rootPkg := none, graph := [], items := [],
    activePackage := none }

/-- The loaded item for package `A` of the cyclic workspace. -/
def itemA : DependencyTreeItem :=
  loadedItem (some "yarn") [("A", ["B"]), ("B", ["A"])] ("A", { name := "A" })

/-- The loaded item for package `B` of the cyclic workspace. -/
def itemB : DependencyTreeItem :=
  loadedItem (some "yarn") [("A", ["B"]), ("B", ["A"])] ("B", { name := "B" })

/-- Cyclic-workspace state after one load. -/
def cycleStLoaded : ProviderState :=
  { cycleSt with items := [("A", itemA), ("B", itemB)] }

/-- A workspace whose only package `X` declares an out-edge to `gone`,
a name with no package in the index at query time. -/
def ghostWorld : World :=
  { getWorkspaces := fun _ => [("X", { name := "X" })],
    getDependencyTree := fun _ => [("X", ["gone"])],
    toolOverride := none,
    getWorkspaceTool := fun _ => none,
    getWorkspaceRoot := fun _ => some "/ghost",
    readJson := fun p => Except.error (JsErr.readFailed p),
    pkgUp := fun _ => none,
    dirname := fun s => s }

/-- Provider state for the `ghost` workspace. -/
def ghostSt : ProviderState :=
  { workspaceRoot := "/ghost", workspacePkgJson := none,
    workspaceTool := none, rootPkg := none, graph := [], items := [],
    activePackage := none }

/-- The loaded item for package `X`, whose out-edge names a missing
package. -/
def itemX : DependencyTreeItem :=
  loadedItem none [("X", ["gone"])] ("X", { name := "X" })

/-- Ghost-workspace state after one load. -/
def ghostStLoaded : ProviderState := { ghostSt with items := [("X", itemX)] }

/-- A root with no discoverable packages at all. -/
def emptyWorld : World :=
  { getWorkspaces := fun _ => [],
    getDependencyTree := fun _ => [],
    toolOverride := none,
    getWorkspaceTool := fun _ => none,
    getWorkspaceRoot := fun _ => none,
    readJson := fun p => Except.error (JsErr.readFailed p),
    pkgUp := fun _ => none,
    dirname := fun s => s }

/-- Collaborators for a file at `/tmp/standalone/notes.txt` whose
directory chain contains no `package.json` at all: the nearest-manifest
search is absent and there is no enclosing workspace root. -/
def noManifestWorld : World :=
  { getWorkspaces := fun _ => [],
    getDependencyTree := fun _ => [],
    toolOverride := none,
    getWorkspaceTool := fun _ => none,
    getWorkspaceRoot := fun _ => none,
    readJson := fun p => Except.error (JsErr.readFailed p),
    pkgUp := fun _ => none,
    dirname := fun _ => "/tmp/standalone" }

/-! Helper lemmas about the embedded JS map operations. -/

/-- A non-empty list is not `isEmpty`. -/
theorem isEmpty_false_of_ne_nil {α : Type} {l : List α} (h : l ≠ []) :
    l.isEmpty = false := by
  cases l with
  | nil => exact absurd rfl h
  | cons a t => rfl

/-- Every member of `jsMapSet l k v` is a member of `l` or the new
binding. -/
theorem mem_jsMapSet {α : Type} (q : String × α) :
    ∀ (l : List (String × α)) (k : String) (v : α),
      q ∈ jsMapSet l k v → q ∈ l ∨ q = (k, v) := by
  intro l
  induction l with
  | nil =>
    intro k v h
    simp only [jsMapSet, List.mem_singleton] at h
    exact Or.inr h
  | cons p rest ih =>
    intro k v h
    obtain ⟨k2, v2⟩ := p
    simp only [jsMapSet] at h
    by_cases hk : (k2 == k) = true
    · rw [if_pos hk] at h
      rcases List.mem_cons.mp h with h1 | h1
      · right
        have hkk : k2 = k := by simpa using hk
        rw [h1, hkk]
      · exact Or.inl (List.mem_cons_of_mem _ h1)
    · rw [if_neg hk] at h
      rcases List.mem_cons.mp h with h1 | h1
      · rw [h1]; exact Or.inl (List.mem_cons_self _ _)
      · rcases ih k v h1 with h2 | h2
        · exact Or.inl (List.mem_cons_of_mem _ h2)
        · exact Or.inr h2

/-- Setting a key that is not yet present appends the binding. -/
theorem jsMapSet_not_mem {α : Type} :
    ∀ (l : List (String × α)) (k : String) (v : α),
      k ∉ l.map Prod.fst → jsMapSet l k v = l ++ [(k, v)] := by
  intro l
  induction l with
  | nil => intro k v _; rfl
  | cons p rest ih =>
    intro k v h
    obtain ⟨k2, v2⟩ := p
    simp only [List.map_cons, List.mem_cons] at h
    push_neg at h
    obtain ⟨h1, h2⟩ := h
    simp only [jsMapSet]
    rw [if_neg, ih k v h2]
    · rfl
    · simp only [beq_iff_eq]
      exact fun hh => h1 hh.symm

/-- `jsMapSet` never shrinks the map. -/
theorem length_le_jsMapSet {α : Type} :
    ∀ (l : List (String × α)) (k : String) (v : α),
      l.length ≤ (jsMapSet l k v).length := by
  intro l
  induction l with
  | nil => intro k v; simp [jsMapSet]
  | cons p rest ih =>
    intro k v
    obtain ⟨k2, v2⟩ := p
    simp only [jsMapSet]
    by_cases hk : (k2 == k) = true
    · rw [if_pos hk]; simp
    · rw [if_neg hk]
      simp only [List.length_cons]
      exact Nat.succ_le_succ (ih k v)

/-- Every member of a map built by repeated `jsMapSet` comes from the
initial map or from one of the inserted entries. -/
theorem mem_foldl_jsMapSet (g : String × PackageInfo → DependencyTreeItem) :
    ∀ (ps : List (String × PackageInfo))
      (l : List (String × DependencyTreeItem))
      (q : String × DependencyTreeItem),
      q ∈ ps.foldl (fun acc e => jsMapSet acc e.1 (g e)) l →
      q ∈ l ∨ ∃ e, e ∈ ps ∧ q = (e.1, g e) := by
  intro ps
  induction ps with
  | nil => intro l q h; exact Or.inl h
  | cons e rest ih =>
    intro l q h
    simp only [List.foldl_cons] at h
    rcases ih _ q h with h1 | h1
    · rcases mem_jsMapSet q l e.1 (g e) h1 with h2 | h2
      · exact Or.inl h2
      · exact Or.inr ⟨e, List.mem_cons_self _ _, h2⟩
    · obtain ⟨e2, he2, hq⟩ := h1
      exact Or.inr ⟨e2, List.mem_cons_of_mem _ he2, hq⟩

/-- With pairwise-distinct keys, repeated `jsMapSet` appends one binding
per entry, in entry order. -/
theorem foldl_jsMapSet_eq_append
    (g : String × PackageInfo → DependencyTreeItem) :
    ∀ (ps : List (String × PackageInfo))
      (l : List (String × DependencyTreeItem)),
      (ps.map Prod.fst).Nodup →
      (∀ e ∈ ps, e.1 ∉ l.map Prod.fst) →
      ps.foldl (fun acc e => jsMapSet acc e.1 (g e)) l =
        l ++ ps.map (fun e => (e.1, g e)) := by
  intro ps
  induction ps with
  | nil => intro l _ _; simp
  | cons e rest ih =>
    intro l hnd hdisj
    have hnd2 : e.1 ∉ rest.map Prod.fst ∧ (rest.map Prod.fst).Nodup := by
      simpa [List.nodup_cons] using hnd
    have hdj : ∀ e2 ∈ rest, e2.1 ∉ (l ++ [(e.1, g e)]).map Prod.fst := by
      intro e2 he2
      simp only [List.map_append, List.mem_append, List.map_cons,
        List.map_nil, List.mem_singleton]
      push_neg
      refine ⟨hdisj e2 (List.mem_cons_of_mem _ he2), ?_⟩
      intro heq
      exact hnd2.1 (List.mem_map.mpr ⟨e2, he2, heq⟩)
    simp only [List.foldl_cons]
    rw [jsMapSet_not_mem l e.1 (g e) (hdisj e (List.mem_cons_self _ _))]
    rw [ih (l ++ [(e.1, g e)]) hnd2.2 hdj]
    simp

/-- Repeated `jsMapSet` never shrinks the map. -/
theorem length_le_foldl_jsMapSet
    (g : String × PackageInfo → DependencyTreeItem) :
    ∀ (ps : List (String × PackageInfo))
      (l : List (String × DependencyTreeItem)),
      l.length ≤ (ps.foldl (fun acc e => jsMapSet acc e.1 (g e)) l).length := by
  intro ps
  induction ps with
  | nil => intro l; simp
  | cons e rest ih =>
    intro l
    simp only [List.foldl_cons]
    exact le_trans (length_le_jsMapSet l e.1 (g e)) (ih _)

/-- A non-empty enumeration yields a non-empty item map. -/
theorem buildItems_ne_nil (tool : Option String)
    (tree : List (String × List String)) :
    ∀ ps : List (String × PackageInfo), ps ≠ [] →
      buildItems tool tree ps ≠ [] := by
  intro ps hps
  cases ps with
  | nil => exact absurd rfl hps
  | cons e rest =>
    intro hnil
    have h1 : (jsMapSet ([] : List (String × DependencyTreeItem)) e.1
        (loadedItem tool tree e)).length ≤
        (buildItems tool tree (e :: rest)).length := by
      unfold buildItems
      simp only [List.foldl_cons]
      exact length_le_foldl_jsMapSet _ rest _
    rw [hnil] at h1
    simp [jsMapSet] at h1

/-- With pairwise-distinct package names, the item map holds exactly one
binding per enumerated package, in enumeration order. -/
theorem buildItems_eq_map (tool : Option String)
    (tree : List (String × List String))
    (ws : List (String × PackageInfo))
    (h : (ws.map Prod.fst).Nodup) :
    buildItems tool tree ws = ws.map (fun e => (e.1, loadedItem tool tree e)) := by
  have h2 := foldl_jsMapSet_eq_append (fun e => loadedItem tool tree e) ws [] h
    (by simp)
  simpa [buildItems] using h2

/-- When the expanding node's own name is not among its out-edge keys,
`resolveDeps` is the plain lookup map: one entry per key, no notice, no
error. -/
theorem resolveDeps_no_self (items : List (String × DependencyTreeItem))
    (selfName : String) (keys : List String)
    (h : keys.contains selfName = false) :
    ∀ todo : List String,
      resolveDeps items selfName keys todo =
        Except.ok (todo.map (fun n => jsMapGet items n), []) := by
  intro todo
  induction todo with
  | nil => rfl
  | cons n rest ih =>
    unfold resolveDeps
    rw [h]
    simp only [Bool.false_eq_true, if_false]
    rw [ih]
    rfl

/-- A successful `getRootItem` always returns an item with the `root`
flag set. -/
theorem getRootItem_ok_root (w : World) (st : ProviderState)
    (items : List (String × DependencyTreeItem))
    (st2 : ProviderState) (it : DependencyTreeItem)
    (h : getRootItem w st items = Except.ok (st2, it)) : it.root = true := by
  unfold getRootItem at h
  split at h
  · simp at h
  · split at h
    · simp at h
    · simp only [Except.ok.injEq, Prod.mk.injEq] at h
      rw [← h.2]
      rfl

/-! Claim theorems. -/

/-- C1 counterexample: in the two-package cycle `A` depends on `B` and
`B` depends on `A`, the expansion of `B` (completing the cycle) does
include `A`, yet the emitted notice list is empty — not the claimed
exactly-one circular-dependency notice.  The source's check compares an
element's own name against its own out-edge keys, which a pure
two-cycle never satisfies. -/
theorem c1_counterexample :
    getChildren cycleWorld cycleSt (some itemB) =
      Except.ok (cycleStLoaded, [some itemA], []) := rfl

/-- C1 amended: expanding `A` includes `B` and expanding `B` includes
`A`, and neither expansion emits any circular-dependency notice. -/
theorem c1_two_cycle_amended :
    getChildren cycleWorld cycleSt (some itemA) =
      Except.ok (cycleStLoaded, [some itemB], []) ∧
    getChildren cycleWorld cycleSt (some itemB) =
      Except.ok (cycleStLoaded, [some itemA], []) :=
  ⟨rfl, rfl⟩

/-- C5: for a file whose directory chain has no owning manifest
(`pkgUp` absent), `setActiveFile` does not return cleanly: the absent
manifest path reaches the manifest reader (the `as string` cast) and
the failure propagates as an error.  No state field is mutated (the
assignments come after the failing read) and no tree-change event
fires, but the operation throws instead of returning absent. -/
theorem c5_no_manifest_crash :
    setActiveFile noManifestWorld exSt "/tmp/standalone/notes.txt" =
      Except.error JsErr.nullPathRead := rfl

/-- C7: for every non-root node whose out-edge set is empty,
`getChildren` returns the empty sequence. -/
theorem c7_leaf_children (w : World) (st : ProviderState)
    (el : DependencyTreeItem) (h1 : el.root = false)
    (h2 : el.workspace.children = []) :
    getChildren w st (some el) =
      Except.ok ((loadDependencyTree w st st.workspaceRoot).1, [], []) := by
  simp [getChildren, h1, h2]

/-- Witness for C7: the leaf package `lib-b` of the example workspace. -/
theorem c7_leaf_children_witness :
    getChildren exWorld exSt (some exItemLibB) =
      Except.ok ((loadDependencyTree exWorld exSt exSt.workspaceRoot).1, [], []) :=
  c7_leaf_children exWorld exSt exItemLibB rfl rfl

/-- C8: the collapse-state hint of every item materialized by a load is
a pure function of its out-edge set: non-empty gives `Collapsed`
(expandable), empty gives `None` (leaf). -/
theorem c8_collapse_state (w : World) (st : ProviderState) (root : String)
    (n : String) (it : DependencyTreeItem)
    (h : (n, it) ∈ (loadDependencyTree w st root).2.items) :
    it.collapsibleState =
      (if it.workspace.children.isEmpty then TreeItemCollapsibleState.None
       else TreeItemCollapsibleState.Collapsed) := by
  have h0 : (n, it) ∈ (w.getWorkspaces root).foldl
      (fun acc e => jsMapSet acc e.1
        (loadedItem (jsOr w.toolOverride (w.getWorkspaceTool root))
          (w.getDependencyTree (w.getWorkspaces root)) e)) [] := h
  rcases mem_foldl_jsMapSet _ _ _ _ h0 with h3 | h3
  · simp at h3
  · obtain ⟨e, _, he2⟩ := h3
    have hit : it =
        loadedItem (jsOr w.toolOverride (w.getWorkspaceTool root))
          (w.getDependencyTree (w.getWorkspaces root)) e :=
      congrArg Prod.snd he2
    rw [hit]
    simp [loadedItem]

/-- Witness for C8: the `app` item of the example workspace. -/
theorem c8_collapse_state_witness :
    exItemApp.collapsibleState =
      (if exItemApp.workspace.children.isEmpty then TreeItemCollapsibleState.None
       else TreeItemCollapsibleState.Collapsed) :=
  c8_collapse_state exWorld exSt "/repo" "app" exItemApp (by decide)

/-- C9: the workspace-tool command string is resolved with the
caller-supplied override first, the detected tool second, and the fixed
fallback `"npm run"` exactly when both are absent; a successful
`getRootItem` stores exactly this resolution in `workspaceTool`. -/
theorem c9_tool_resolution :
    (∀ (o d : Option String) (s : String),
      o = some s → s ≠ "" → resolveWorkspaceTool o d = s) ∧
    (∀ (d : Option String) (s : String),
      d = some s → s ≠ "" → resolveWorkspaceTool none d = s) ∧
    (resolveWorkspaceTool none none = "npm run") ∧
    (∀ (w : World) (st : ProviderState)
       (items : List (String × DependencyTreeItem))
       (st2 : ProviderState) (it : DependencyTreeItem) (r : String),
       w.getWorkspaceRoot st.workspaceRoot = some r →
       getRootItem w st items = Except.ok (st2, it) →
       st2.workspaceTool =
         some (resolveWorkspaceTool w.toolOverride (w.getWorkspaceTool r))) := by
  refine ⟨?_, ?_, rfl, ?_⟩
  · intro o d s ho hs
    subst ho
    simp [resolveWorkspaceTool, jsOr, hs]
  · intro d s hd hs
    subst hd
    simp [resolveWorkspaceTool, jsOr, hs]
  · intro w st items st2 it r hr h
    unfold getRootItem at h
    split at h
    · simp at h
    · rename_i wr hwr
      split at h
      · simp at h
      · rw [hwr] at hr
        injection hr with hrr
        subst hrr
        simp only [Except.ok.injEq, Prod.mk.injEq] at h
        rw [← h.1]

/-- Witness for C9: override wins over detection, detection wins over
the fallback, the fallback is used when both are absent, and
`getRootItem` on the example workspace stores the resolved tool. -/
theorem c9_tool_resolution_witness :
    resolveWorkspaceTool (some "pnpm") (some "yarn") = "pnpm" ∧
    resolveWorkspaceTool none (some "yarn") = "yarn" ∧
    resolveWorkspaceTool none none = "npm run" ∧
    exStRootPlain.workspaceTool =
      some (resolveWorkspaceTool exWorld.toolOverride
        (exWorld.getWorkspaceTool "/repo")) :=
  ⟨c9_tool_resolution.1 (some "pnpm") (some "yarn") "pnpm" rfl (by decide),
   c9_tool_resolution.2.1 (some "yarn") "yarn" rfl (by decide),
   c9_tool_resolution.2.2.1,
   c9_tool_resolution.2.2.2 exWorld exSt exItems exStRootPlain exRootItem
     "/repo" rfl rfl⟩

/-- C10: `getFirst` presumes a non-empty package map: on an empty map
the destructuring of the exhausted iterator's result throws (it does
not return an absent value), and on a non-empty map it returns the
first item in enumeration order. -/
theorem c10_get_first (w : World) (st : ProviderState) :
    ((loadDependencyTree w st st.workspaceRoot).2.items = [] →
      getFirst w st = Except.error JsErr.undefinedAccess) ∧
    (∀ (n : String) (p : DependencyTreeItem)
       (rest : List (String × DependencyTreeItem)),
       (loadDependencyTree w st st.workspaceRoot).2.items = (n, p) :: rest →
       getFirst w st =
         Except.ok ((loadDependencyTree w st st.workspaceRoot).1, p)) := by
  constructor
  · intro h
    simp only [getFirst]
    rw [h]
  · intro n p rest h
    simp only [getFirst]
    rw [h]

/-- Witness for C10: the empty root errors; the example workspace
returns the `app` item, first in enumeration order. -/
theorem c10_get_first_witness :
    getFirst emptyWorld exSt = Except.error JsErr.undefinedAccess ∧
    getFirst exWorld exSt =
      Except.ok ((loadDependencyTree exWorld exSt exSt.workspaceRoot).1,
        exItemApp) :=
  ⟨(c10_get_first emptyWorld exSt).1 rfl,
   (c10_get_first exWorld exSt).2 "app" exItemApp
     [("lib-a", exItemLibA), ("lib-b", exItemLibB)] rfl⟩

/-- C2: for a loaded workspace, `getChildren` on the root node returns
exactly one item per enumerated package, in enumeration (insertion)
order with no re-sorting, and the count of that sequence equals the
package count reported by `statusText`. -/
theorem c2_root_children (w : World) (st : ProviderState)
    (el : DependencyTreeItem) (pkg : PkgJson)
    (hroot : el.root = true)
    (hnd : ((w.getWorkspaces st.workspaceRoot).map Prod.fst).Nodup)
    (hpkg : st.workspacePkgJson = some pkg) :
    getChildren w st (some el) =
      Except.ok ((loadDependencyTree w st st.workspaceRoot).1,
        (w.getWorkspaces st.workspaceRoot).map
          (fun e => some (loadedItem
            (jsOr w.toolOverride (w.getWorkspaceTool st.workspaceRoot))
            (w.getDependencyTree (w.getWorkspaces st.workspaceRoot)) e)),
        []) ∧
    ((loadDependencyTree w st st.workspaceRoot).2.items).length =
      (w.getWorkspaces st.workspaceRoot).length ∧
    statusText (loadDependencyTree w st st.workspaceRoot).1 =
      "Workspace: " ++ pkg.name ++ ", " ++
        toString (w.getWorkspaces st.workspaceRoot).length ++ " packages" := by
  have hitems : (loadDependencyTree w st st.workspaceRoot).2.items =
      (w.getWorkspaces st.workspaceRoot).map
        (fun e => (e.1, loadedItem
          (jsOr w.toolOverride (w.getWorkspaceTool st.workspaceRoot))
          (w.getDependencyTree (w.getWorkspaces st.workspaceRoot)) e)) :=
    buildItems_eq_map _ _ _ hnd
  have hlen : ((loadDependencyTree w st st.workspaceRoot).2.items).length =
      (w.getWorkspaces st.workspaceRoot).length := by
    rw [hitems, List.length_map]
  refine ⟨?_, hlen, ?_⟩
  · simp only [getChildren, hroot, if_true]
    rw [hitems, List.map_map]
    rfl
  · have hjson : (loadDependencyTree w st st.workspaceRoot).1.workspacePkgJson =
        some pkg := hpkg
    have hlen2 : ((loadDependencyTree w st st.workspaceRoot).1.items).length =
        (w.getWorkspaces st.workspaceRoot).length := hlen
    unfold statusText
    rw [hjson, hlen2]

/-- Witness for C2 at the example workspace. -/
theorem c2_root_children_witness :
    getChildren exWorld exSt (some exRootItem) =
      Except.ok ((loadDependencyTree exWorld exSt exSt.workspaceRoot).1,
        (exWorld.getWorkspaces exSt.workspaceRoot).map
          (fun e => some (loadedItem
            (jsOr exWorld.toolOverride (exWorld.getWorkspaceTool exSt.workspaceRoot))
            (exWorld.getDependencyTree (exWorld.getWorkspaces exSt.workspaceRoot)) e)),
        []) ∧
    ((loadDependencyTree exWorld exSt exSt.workspaceRoot).2.items).length =
      (exWorld.getWorkspaces exSt.workspaceRoot).length ∧
    statusText (loadDependencyTree exWorld exSt exSt.workspaceRoot).1 =
      "Workspace: " ++ PkgJson.name { name := "repo" } ++ ", " ++
        toString (exWorld.getWorkspaces exSt.workspaceRoot).length ++
        " packages" :=
  c2_root_children exWorld exSt exRootItem { name := "repo" } rfl (by decide) rfl

/-- C3: `setActiveFile` stores the new root, workspace manifest and
active node, and fires a tree-change event exactly when the owning
workspace root of the new file differs from the previously loaded root
(zero events when it is the same root, one event — the reload trigger —
when it differs). -/
theorem c3_active_file_events (w : World) (st : ProviderState)
    (f p r : String) (apkg wpkg : PkgJson)
    (hp : w.pkgUp (w.dirname f) = some p)
    (ha : w.readJson p = Except.ok apkg)
    (hr : w.getWorkspaceRoot (w.dirname f) = some r)
    (hw2 : w.readJson (r ++ "/package.json") = Except.ok wpkg) :
    setActiveFile w st f =
      Except.ok
        ({ st with
            workspaceRoot := r,
            workspacePkgJson := some wpkg,
            activePackage := jsMapGet st.items apkg.name },
         if r = st.workspaceRoot then 0 else 1) := by
  simp only [setActiveFile, hp, ha, hr, hw2]
  split <;> simp [*]

/-- Witness for C3: activating a file of the `app` package while the
`/repo` workspace is already loaded (same root, zero events). -/
theorem c3_active_file_events_witness :
    setActiveFile exWorld exSt "/repo/packages/app/index.ts" =
      Except.ok
        ({ exSt with
            workspaceRoot := "/repo",
            workspacePkgJson := some { name := "repo" },
            activePackage :=
              jsMapGet exSt.items (PkgJson.name { name := "app" }) },
         if "/repo" = exSt.workspaceRoot then 0 else 1) :=
  c3_active_file_events exWorld exSt "/repo/packages/app/index.ts"
    "/repo/packages/app/package.json" "/repo" { name := "app" }
    { name := "repo" } rfl rfl rfl rfl

/-- C4 counterexample: package `X` has the single out-edge `gone`,
which is not in the item index; `getChildren` does not omit it — the
returned sequence is the one-element list holding an undefined entry,
not the empty sequence the claim requires. -/
theorem c4_counterexample :
    getChildren ghostWorld ghostSt (some itemX) =
      Except.ok (ghostStLoaded, [(none : Option DependencyTreeItem)], []) ∧
    getChildren ghostWorld ghostSt (some itemX) ≠
      Except.ok (ghostStLoaded, [], []) := by
  refine ⟨rfl, ?_⟩
  intro h
  have h1 : getChildren ghostWorld ghostSt (some itemX) =
      Except.ok (ghostStLoaded, [(none : Option DependencyTreeItem)], []) := rfl
  rw [h1] at h
  simp at h

/-- C4 amended: for a non-root node whose own name is not among its
out-edge names, `getChildren` returns exactly one entry per out-edge
name — the looked-up item when the name is in the index and an
undefined placeholder when it is not — with no error and no notice. -/
theorem c4_missing_dep_placeholder (w : World) (st : ProviderState)
    (el : DependencyTreeItem)
    (h1 : el.root = false)
    (h2 : el.workspace.children ≠ [])
    (h3 : (el.workspace.children).contains el.workspace.name = false) :
    getChildren w st (some el) =
      Except.ok ((loadDependencyTree w st st.workspaceRoot).1,
        el.workspace.children.map
          (fun n => jsMapGet (loadDependencyTree w st st.workspaceRoot).2.items n),
        []) := by
  simp only [getChildren, h1, Bool.false_eq_true, if_false]
  rw [isEmpty_false_of_ne_nil h2]
  simp only [Bool.false_eq_true, if_false]
  rw [resolveDeps_no_self _ _ _ h3]

/-- Witness for C4: package `X` with its dangling out-edge `gone`. -/
theorem c4_missing_dep_placeholder_witness :
    getChildren ghostWorld ghostSt (some itemX) =
      Except.ok ((loadDependencyTree ghostWorld ghostSt ghostSt.workspaceRoot).1,
        itemX.workspace.children.map
          (fun n => jsMapGet
            (loadDependencyTree ghostWorld ghostSt ghostSt.workspaceRoot).2.items n),
        []) :=
  c4_missing_dep_placeholder ghostWorld ghostSt itemX rfl (by decide) (by decide)

/-- C6: when package discovery yields an empty package set, the
top-level query returns the empty sequence with no root node and no
error; when the package set is non-empty and the root item is built,
the top-level query returns exactly that one root node (whose `root`
flag is set). -/
theorem c6_top_level (w : World) (st : ProviderState) :
    (w.getWorkspaces st.workspaceRoot = [] →
      getChildren w st none =
        Except.ok ((loadDependencyTree w st st.workspaceRoot).1, [], [])) ∧
    (∀ (st2 : ProviderState) (rootIt : DependencyTreeItem),
      w.getWorkspaces st.workspaceRoot ≠ [] →
      getRootItem w (loadDependencyTree w st st.workspaceRoot).1
        (loadDependencyTree w st st.workspaceRoot).2.items =
          Except.ok (st2, rootIt) →
      getChildren w st none = Except.ok (st2, [some rootIt], []) ∧
        rootIt.root = true) := by
  constructor
  · intro h
    have hitems : (loadDependencyTree w st st.workspaceRoot).2.items = [] := by
      show buildItems _ _ (w.getWorkspaces st.workspaceRoot) = []
      rw [h]
      rfl
    simp only [getChildren]
    rw [hitems]
    simp
  · intro st2 rootIt hne hri
    refine ⟨?_, getRootItem_ok_root w (loadDependencyTree w st st.workspaceRoot).1
      (loadDependencyTree w st st.workspaceRoot).2.items st2 rootIt hri⟩
    have hne2 : ((loadDependencyTree w st st.workspaceRoot).2.items).isEmpty =
        false := by
      apply isEmpty_false_of_ne_nil
      show buildItems _ _ _ ≠ []
      exact buildItems_ne_nil _ _ _ hne
    simp only [getChildren]
    rw [hne2]
    simp only [Bool.false_eq_true, if_false]
    rw [hri]

/-- Witness for C6: the empty root renders empty; the example workspace
yields exactly one root node. -/
theorem c6_top_level_witness :
    getChildren emptyWorld exSt none =
      Except.ok ((loadDependencyTree emptyWorld exSt exSt.workspaceRoot).1,
        [], []) ∧
    (getChildren exWorld exSt none =
      Except.ok (exStRoot, [some exRootItem], []) ∧ exRootItem.root = true) :=
  ⟨(c6_top_level emptyWorld exSt).1 rfl,
   (c6_top_level exWorld exSt).2 exStRoot exRootItem (by decide) rfl⟩
